import Mathlib

/-!
Verification of the resilience and caching subsystem of the odoo-crm-mcp-server
repository: the retry executor with error classification (src/utils/retry.ts),
the circuit breaker (src/services/circuit-breaker.ts), and the two cache
backends (src/utils/cache-memory.ts and src/utils/cache-redis.ts).

Timestamps (JavaScript `Date.now()` values, integer milliseconds) are modelled
as `Int`.  Asynchronous functions are modelled by passing in the outcome of
each invocation explicitly (`Except Unit T`, or `Nat → Except String T` when a
function may be invoked several times); thrown exceptions are `Except.error`.
-/

/-! ## Retry executor (retry.ts) -/

/-- Character-list prefix test, used to implement JavaScript
`String.prototype.includes`. -/
def charsHavePre : List Char → List Char → Bool
  | [], _ => true
  | _ :: _, [] => false
  | a :: as, b :: bs => a == b && charsHavePre as bs

/-- Substring occurrence test on character lists: does `pat` occur
contiguously inside `msg`? -/
def charsContain (pat : List Char) : List Char → Bool
  | [] => charsHavePre pat []
  | c :: ms => charsHavePre pat (c :: ms) || charsContain pat ms

/-- JavaScript `message.includes(pattern)`: `pattern` occurs as a contiguous
substring of `message`. -/
def stringIncludes (message pattern : String) : Bool :=
  charsContain pattern.toList message.toList

/-- retry.ts: network/server errors that should trigger retry
(`RETRYABLE_PATTERNS`). -/
def RETRYABLE_PATTERNS : List String :=
  ["ECONNREFUSED", "ECONNRESET", "ETIMEDOUT", "EHOSTUNREACH",
   "socket hang up", "ENOTFOUND",
   "500", "502", "503", "504",
   "Traceback"]

/-- retry.ts: client errors that should NOT be retried
(`NON_RETRYABLE_PATTERNS`). -/
def NON_RETRYABLE_PATTERNS : List String :=
  ["Invalid credentials", "Access Denied", "Forbidden",
   "unknown field", "does not have attribute",
   "invalid literal"]

/-- retry.ts `isRetryableError`: the non-retryable list is checked first and
forces `false`; then the retryable list is checked; unknown errors are not
retried. -/
def isRetryableError (message : String) : Bool :=
  !(NON_RETRYABLE_PATTERNS.any (fun p => stringIncludes message p)) &&
    RETRYABLE_PATTERNS.any (fun p => stringIncludes message p)

/-- Observable trace of one `executeWithRetry` run: the value returned or the
exception thrown (`Except.error none` models JavaScript throwing the
`undefined` value of `lastError` when the loop body never ran), the number of
invocations of the wrapped function, and the backoff waits performed, in
order. -/
structure RetryTrace (T : Type) where
  result : Except (Option String) T
  calls : Nat
  waits : List Int

/-- The `for (let attempt = 1; attempt <= maxRetries; attempt++)` loop of
retry.ts `executeWithRetry`.  `fn i` is the outcome of the i-th invocation of
the wrapped function; `fuel` is the number of loop iterations remaining
(`maxRetries - attempt + 1`); `lastError` is the last error seen. -/
def retryGo (fn : Nat → Except String T) (maxRetries : Nat) (baseDelayMs : Int) :
    Nat → Nat → Option String → RetryTrace T
  | _, 0, lastError => ⟨Except.error lastError, 0, []⟩
  | attempt, fuel + 1, _ =>
    match fn attempt with
    | Except.ok v => ⟨Except.ok v, 1, []⟩
    | Except.error e =>
      if !(isRetryableError e) || (attempt == maxRetries) then
        ⟨Except.error (some e), 1, []⟩
      else
        let rest := retryGo fn maxRetries baseDelayMs (attempt + 1) fuel (some e)
        ⟨rest.result, rest.calls + 1, (baseDelayMs * 2 ^ (attempt - 1)) :: rest.waits⟩

/-- retry.ts `executeWithRetry`: run the retry loop from attempt 1. -/
def executeWithRetry (fn : Nat → Except String T) (maxRetries : Nat) (baseDelayMs : Int) :
    RetryTrace T :=
  retryGo fn maxRetries baseDelayMs 1 maxRetries none

/-! ## Circuit breaker (circuit-breaker.ts) -/

/-- The three states of the circuit breaker. -/
inductive CircuitState where
  | CLOSED
  | OPEN
  | HALF_OPEN
deriving DecidableEq

/-- The mutable fields of the `CircuitBreaker` class. -/
structure CBState where
  state : CircuitState
  failureCount : Nat
  successCount : Nat
  lastFailureTime : Option Int
  lastStateChange : Option Int
  halfOpenAttempts : Nat
deriving DecidableEq

/-- Constructor configuration of `CircuitBreaker`, fixed at construction. -/
structure CBConfig where
  failureThreshold : Nat
  resetTimeoutMs : Int
  halfOpenMaxAttempts : Nat
deriving DecidableEq

/-- Field initializers of the `CircuitBreaker` class. -/
def CBState.initial : CBState :=
  ⟨CircuitState.CLOSED, 0, 0, none, none, 0⟩

/-- `transitionTo`: change state, recording `lastStateChange`, only when the
state actually changes. -/
def CBState.transitionTo (s : CBState) (newState : CircuitState) (now : Int) : CBState :=
  if s.state ≠ newState then
    { s with state := newState, lastStateChange := some now }
  else
    s

/-- `shouldTransitionToHalfOpen`: enough time has passed since the last
failure. -/
def CBState.shouldTransitionToHalfOpen (cfg : CBConfig) (s : CBState) (now : Int) : Bool :=
  match s.lastFailureTime with
  | none => true
  | some lft => decide (now - lft ≥ cfg.resetTimeoutMs)

/-- JavaScript `Math.ceil(a / b)` on integer inputs with positive divisor:
`⌈x⌉ = -⌊-x⌋`, and `Int` division by a positive divisor is floor division.
`mathCeilDiv_eq_ceil` below proves this equal to the rational ceiling. -/
def mathCeilDiv (a b : Int) : Int :=
  -((-a) / b)

/-- `getSecondsUntilHalfOpen`: whole seconds until the next HALF_OPEN
attempt, `Math.ceil(remaining / 1000)` clamped at 0. -/
def CBState.getSecondsUntilHalfOpen (cfg : CBConfig) (s : CBState) (now : Int) : Int :=
  match s.lastFailureTime with
  | none => 0
  | some lft =>
    let remaining := cfg.resetTimeoutMs - (now - lft)
    if remaining > 0 then mathCeilDiv remaining 1000 else 0

/-- `onSuccess`: bump `successCount`; a HALF_OPEN success closes the circuit
and zeroes `failureCount` and `halfOpenAttempts`; a CLOSED success zeroes
`failureCount`. -/
def CBState.onSuccess (s : CBState) (now : Int) : CBState :=
  let s1 := { s with successCount := s.successCount + 1 }
  if s1.state = CircuitState.HALF_OPEN then
    { s1.transitionTo CircuitState.CLOSED now with failureCount := 0, halfOpenAttempts := 0 }
  else if s1.state = CircuitState.CLOSED then
    { s1 with failureCount := 0 }
  else
    s1

/-- `onFailure`: bump `failureCount` and stamp `lastFailureTime`; a HALF_OPEN
failure reopens the circuit and zeroes `halfOpenAttempts`; a CLOSED failure
opens the circuit once `failureCount` reaches the threshold. -/
def CBState.onFailure (cfg : CBConfig) (s : CBState) (now : Int) : CBState :=
  let s1 := { s with failureCount := s.failureCount + 1, lastFailureTime := some now }
  if s1.state = CircuitState.HALF_OPEN then
    { s1.transitionTo CircuitState.OPEN now with halfOpenAttempts := 0 }
  else if s1.state = CircuitState.CLOSED then
    if s1.failureCount ≥ cfg.failureThreshold then
      s1.transitionTo CircuitState.OPEN now
    else
      s1
  else
    s1

/-- Outcome of the admission phase of `execute` (everything before
`await fn()`): either the call proceeds to invoke `fn`, or a
`CircuitBreakerError` is thrown, distinguished by which message/retry hint it
carries. -/
inductive AdmitDecision where
  | proceed
  | rejectOpen (secondsUntilRetry : Int)
  | rejectHalfOpenBusy (secondsUntilRetry : Int)
deriving DecidableEq

/-- The HALF_OPEN quota gate of `execute`: with the quota consumed, throw the
fixed 5-second `CircuitBreakerError`; otherwise count the attempt and
proceed. -/
def CBState.halfOpenGate (cfg : CBConfig) (s : CBState) : AdmitDecision × CBState :=
  if s.state = CircuitState.HALF_OPEN then
    if s.halfOpenAttempts ≥ cfg.halfOpenMaxAttempts then
      (AdmitDecision.rejectHalfOpenBusy 5, s)
    else
      (AdmitDecision.proceed, { s with halfOpenAttempts := s.halfOpenAttempts + 1 })
  else
    (AdmitDecision.proceed, s)

/-- The synchronous admission phase of `execute`: the OPEN fail-fast check
followed by the HALF_OPEN quota gate. -/
def CBState.execAdmit (cfg : CBConfig) (s : CBState) (now : Int) : AdmitDecision × CBState :=
  if s.state = CircuitState.OPEN then
    if s.shouldTransitionToHalfOpen cfg now then
      CBState.halfOpenGate cfg
        { s.transitionTo CircuitState.HALF_OPEN now with halfOpenAttempts := 0 }
    else
      (AdmitDecision.rejectOpen (s.getSecondsUntilHalfOpen cfg now), s)
  else
    CBState.halfOpenGate cfg s

/-- What one `execute` call produced: the value of `fn`, the rethrown error
of `fn`, or a `CircuitBreakerError` thrown without invoking `fn`. -/
inductive ExecOutcome (T : Type) where
  | result (v : T)
  | fnError
  | breakerError (secondsUntilRetry : Int)
deriving DecidableEq

/-- Full observable behaviour of one `execute` call: its outcome, the breaker
state afterwards, and whether the wrapped function was invoked. -/
structure ExecResult (T : Type) where
  outcome : ExecOutcome T
  state : CBState
  fnInvoked : Bool
deriving DecidableEq

/-- `execute` for a call whose admission and settlement happen at the same
timestamp `now`: admission, then `fn` (whose outcome is passed in as
`fnOutcome`), then `onSuccess`/`onFailure`. -/
def CBState.execute (cfg : CBConfig) (s : CBState) (now : Int) (fnOutcome : Except Unit T) :
    ExecResult T :=
  match s.execAdmit cfg now with
  | (AdmitDecision.rejectOpen secs, s1) => ⟨ExecOutcome.breakerError secs, s1, false⟩
  | (AdmitDecision.rejectHalfOpenBusy secs, s1) => ⟨ExecOutcome.breakerError secs, s1, false⟩
  | (AdmitDecision.proceed, s1) =>
    match fnOutcome with
    | Except.ok v => ⟨ExecOutcome.result v, s1.onSuccess now, true⟩
    | Except.error _ => ⟨ExecOutcome.fnError, CBState.onFailure cfg s1 now, true⟩

/-- State of the breaker after `n` consecutive failed `execute` calls, the
i-th call happening at time `times i`. -/
def failNTimes (cfg : CBConfig) (s : CBState) (times : Nat → Int) : Nat → CBState
  | 0 => s
  | n + 1 =>
    (CBState.execute cfg (failNTimes cfg s times n) (times n) (Except.error () : Except Unit Unit)).state

/-! ## Memory cache backend (cache-memory.ts) -/

/-- cache-memory.ts `CacheEntry<T>`. -/
structure CacheEntry (T : Type) where
  data : T
  createdAt : Int
  expiresAt : Int
deriving DecidableEq

/-- cache-memory.ts `CACHE_CONFIG.MAX_SIZE`: maximum entries before LRU
eviction. -/
def CACHE_MAX_SIZE : Nat := 500

/-- Model of the lru-cache dependency: an association list ordered from most
recently used to least recently used.  Lookup without recency bump. -/
def lruLookup (l : List (String × CacheEntry T)) (key : String) : Option (CacheEntry T) :=
  (l.find? (fun p => p.1 == key)).map (fun p => p.2)

/-- Model of the lru-cache dependency: remove every binding of `key`. -/
def lruErase (l : List (String × CacheEntry T)) (key : String) :
    List (String × CacheEntry T) :=
  l.filter (fun p => !(p.1 == key))

/-- Model of the lru-cache dependency: `cache.get(key)` bumps the found
binding to most-recently-used position. -/
def lruTouch (l : List (String × CacheEntry T)) (key : String) :
    List (String × CacheEntry T) :=
  match l.find? (fun p => p.1 == key) with
  | none => l
  | some p => (key, p.2) :: lruErase l key

/-- Model of the lru-cache dependency: `cache.set(key, entry)` overwrites the
binding, makes it most recently used, and evicts beyond `max` entries. -/
def lruInsert (l : List (String × CacheEntry T)) (key : String) (e : CacheEntry T)
    (max : Nat) : List (String × CacheEntry T) :=
  ((key, e) :: lruErase l key).take max

/-- The mutable fields of the `MemoryCache` class: the LRU store, the hit and
miss counters, and the set of keys with an in-flight background refresh. -/
structure MemoryCache (T : Type) where
  cache : List (String × CacheEntry T)
  hits : Nat
  misses : Nat
  refreshingKeys : List String
deriving DecidableEq

/-- A fresh `MemoryCache` as built by the constructor. -/
def MemoryCache.empty : MemoryCache T :=
  ⟨[], 0, 0, []⟩

/-- `MemoryCache.get`: return the stored value when present and not expired,
deleting an expired entry lazily; every call counts exactly one hit or
miss. -/
def MemoryCache.get (m : MemoryCache T) (now : Int) (key : String) :
    Option T × MemoryCache T :=
  match lruLookup m.cache key with
  | none => (none, { m with misses := m.misses + 1 })
  | some entry =>
    if now > entry.expiresAt then
      (none, { m with cache := lruErase m.cache key, misses := m.misses + 1 })
    else
      (some entry.data, { m with cache := lruTouch m.cache key, hits := m.hits + 1 })

/-- `MemoryCache.set`: unconditionally store `{ data, createdAt := now,
expiresAt := now + ttlMs }` under `key`. -/
def MemoryCache.set (m : MemoryCache T) (now : Int) (key : String) (data : T)
    (ttlMs : Int) : MemoryCache T :=
  { m with cache := lruInsert m.cache key ⟨data, now, now + ttlMs⟩ CACHE_MAX_SIZE }

/-- `MemoryCache.has`: same expiry semantics as `get` (including the lazy
delete) but never touches the hit/miss counters. -/
def MemoryCache.has (m : MemoryCache T) (now : Int) (key : String) :
    Bool × MemoryCache T :=
  match lruLookup m.cache key with
  | none => (false, m)
  | some entry =>
    if now > entry.expiresAt then
      (false, { m with cache := lruErase m.cache key })
    else
      (true, { m with cache := lruTouch m.cache key })

/-- `MemoryCache.delete`. -/
def MemoryCache.delete (m : MemoryCache T) (key : String) : Bool × MemoryCache T :=
  ((lruLookup m.cache key).isSome, { m with cache := lruErase m.cache key })

/-- `MemoryCache.clearExpired`: delete every entry with `now > expiresAt`,
returning the new state and the number of entries cleared. -/
def MemoryCache.clearExpired (m : MemoryCache T) (now : Int) : MemoryCache T × Nat :=
  ({ m with cache := m.cache.filter (fun p => !(decide (now > p.2.expiresAt))) },
   (m.cache.filter (fun p => decide (now > p.2.expiresAt))).length)

/-- Result of `MemoryCache.stats`. -/
structure CacheStats where
  size : Nat
  keys : List String
deriving DecidableEq

/-- `MemoryCache.stats`: clear expired entries first, then report the size
and keys of the surviving store. -/
def MemoryCache.stats (m : MemoryCache T) (now : Int) : CacheStats × MemoryCache T :=
  let m1 := (m.clearExpired now).1
  (⟨m1.cache.length, m1.cache.map (fun p => p.1)⟩, m1)

/-- Observable behaviour of one `getWithRefresh` call on the memory backend:
what the caller gets back (`Except.error` when the synchronous `refreshFn`
invocation threw and the exception propagated), the state right after the
synchronous part returns, the number of synchronous `refreshFn` invocations,
and whether a background refresh task was started. -/
structure RefreshResult (T : Type) where
  result : Except Unit T
  state : MemoryCache T
  syncCalls : Nat
  backgroundStarted : Bool

/-- The shared miss path of `MemoryCache.getWithRefresh`: count a miss,
invoke `refreshFn` synchronously (outcome `fnOutcome`), store and return its
result on success, propagate its exception otherwise. -/
def MemoryCache.missFetch (m : MemoryCache T) (now : Int) (key : String)
    (fnOutcome : Except Unit T) (ttlMs : Int) : RefreshResult T :=
  let m1 := { m with misses := m.misses + 1 }
  match fnOutcome with
  | Except.ok v => ⟨Except.ok v, m1.set now key v ttlMs, 1, false⟩
  | Except.error e => ⟨Except.error e, m1, 1, false⟩

/-- `MemoryCache.getWithRefresh`: the stale-while-revalidate algorithm.
`refreshThreshold = createdAt + ttlMs * refreshThresholdPercent / 100` is
computed over the rationals, as JavaScript computes it on floats.  Fresh
entries are returned with a hit and no refresh; stale-but-valid entries are
returned with a hit while a background refresh is started unless one is
already in flight for the key; missing or hard-expired entries take the
synchronous miss path. -/
def MemoryCache.getWithRefresh (m : MemoryCache T) (now : Int) (key : String)
    (fnOutcome : Except Unit T) (ttlMs : Int) (refreshThresholdPercent : Int) :
    RefreshResult T :=
  let entry? := lruLookup m.cache key
  let c0 := lruTouch m.cache key
  match entry? with
  | some entry =>
    if (now : ℚ) < (entry.createdAt : ℚ) + (ttlMs : ℚ) * (refreshThresholdPercent : ℚ) / 100 then
      ⟨Except.ok entry.data, { m with cache := c0, hits := m.hits + 1 }, 0, false⟩
    else if now < entry.expiresAt then
      let started := !(m.refreshingKeys.contains key)
      ⟨Except.ok entry.data,
       { m with cache := c0, hits := m.hits + 1,
                refreshingKeys := if started then key :: m.refreshingKeys else m.refreshingKeys },
       0, started⟩
    else
      MemoryCache.missFetch { m with cache := lruErase m.cache key } now key fnOutcome ttlMs
  | none => MemoryCache.missFetch m now key fnOutcome ttlMs

/-- Settlement of a background refresh task started by `getWithRefresh`: on
success write the fresh data back via `set`, on failure only log; in both
cases remove the key from `refreshingKeys`. -/
def MemoryCache.settleRefresh (m : MemoryCache T) (settleTime : Int) (key : String)
    (outcome : Except Unit T) (ttlMs : Int) : MemoryCache T :=
  let m1 := match outcome with
    | Except.ok v => m.set settleTime key v ttlMs
    | Except.error _ => m
  { m1 with refreshingKeys := m1.refreshingKeys.filter (fun k2 => !(k2 == key)) }

/-! ## Redis cache backend (cache-redis.ts)

The ioredis client and the Redis server are external dependencies; they are
modelled as an in-process key-value store holding the JSON-serialized entry
(serialization is modelled as the identity, so a record holds the
`CacheEntry` itself) together with the native expiry deadline set via the
`PX` argument.  The connection is modelled as error-free, so the only way
into a `catch` block is an exception raised by application code inside the
`try` (in particular a throwing `refreshFn`).  Native expiry is modelled
with the same boundary as the application-level backup check: a record is
visible while `now ≤ expireAt`. -/

/-- One record of the modelled Redis store: the stored entry and the native
TTL deadline. -/
structure RedisRecord (T : Type) where
  entry : CacheEntry T
  expireAt : Int
deriving DecidableEq

/-- cache-redis.ts key namespace prefix `REDIS_CONFIG.KEY_PREFIX`
(default `odoo-crm:`). -/
def KEY_PREFIX : String := "odoo-crm:"

/-- `prefixKey`: add the namespace prefix. -/
def prefixKey (key : String) : String := KEY_PREFIX ++ key

/-- The state of the `RedisCache` class together with its modelled Redis
store: per-instance hit/miss counters and in-flight refresh keys, plus the
shared store. -/
structure RedisCache (T : Type) where
  store : List (String × RedisRecord T)
  hits : Nat
  misses : Nat
  refreshingKeys : List String
deriving DecidableEq

/-- A fresh `RedisCache` over an empty store. -/
def RedisCache.empty : RedisCache T :=
  ⟨[], 0, 0, []⟩

/-- Modelled Redis `GET`: the stored entry, or `none` when the key is absent
or past its native TTL deadline. -/
def redisClientGet (store : List (String × RedisRecord T)) (now : Int) (key : String) :
    Option (CacheEntry T) :=
  match store.find? (fun p => p.1 == key) with
  | none => none
  | some p => if now > p.2.expireAt then none else some p.2.entry

/-- Modelled Redis `SET key value PX ttlMs`: overwrite the record and set the
native TTL deadline `now + ttlMs`. -/
def redisClientSet (store : List (String × RedisRecord T)) (now : Int) (key : String)
    (entry : CacheEntry T) (ttlMs : Int) : List (String × RedisRecord T) :=
  (key, ⟨entry, now + ttlMs⟩) :: store.filter (fun p => !(p.1 == key))

/-- Modelled Redis `DEL`. -/
def redisClientDel (store : List (String × RedisRecord T)) (key : String) :
    List (String × RedisRecord T) :=
  store.filter (fun p => !(p.1 == key))

/-- Modelled Redis `EXISTS`: 1 when the key is present and not past its
native TTL deadline. -/
def redisClientExists (store : List (String × RedisRecord T)) (now : Int) (key : String) :
    Bool :=
  match store.find? (fun p => p.1 == key) with
  | none => false
  | some p => !(decide (now > p.2.expireAt))

/-- `RedisCache.get`: fetch and parse the entry under the prefixed key; apply
the application-level backup expiry check (deleting on expiry); count exactly
one hit or miss. -/
def RedisCache.get (r : RedisCache T) (now : Int) (key : String) :
    Option T × RedisCache T :=
  match redisClientGet r.store now (prefixKey key) with
  | none => (none, { r with misses := r.misses + 1 })
  | some entry =>
    if now > entry.expiresAt then
      (none, { r with store := redisClientDel r.store (prefixKey key),
                      misses := r.misses + 1 })
    else
      (some entry.data, { r with hits := r.hits + 1 })

/-- `RedisCache.set`: store `{ data, createdAt := now, expiresAt := now +
ttlMs }` under the prefixed key with native TTL `ttlMs`. -/
def RedisCache.set (r : RedisCache T) (now : Int) (key : String) (data : T)
    (ttlMs : Int) : RedisCache T :=
  { r with store := redisClientSet r.store now (prefixKey key) ⟨data, now, now + ttlMs⟩ ttlMs }

/-- `RedisCache.has`: `EXISTS` on the prefixed key; relies on native TTL only
and never touches the counters. -/
def RedisCache.has (r : RedisCache T) (now : Int) (key : String) :
    Bool × RedisCache T :=
  (redisClientExists r.store now (prefixKey key), r)

/-- Observable behaviour of one `getWithRefresh` call on the Redis backend.
`fn i` is the outcome of the i-th `refreshFn` invocation: because `await
refreshFn()` sits inside the `try` whose `catch` falls back to a direct
fetch, `refreshFn` can be invoked twice in one call.  `calls` counts its
synchronous invocations and `backgroundStarted` records a fire-and-forget
background refresh. -/
structure RedisRefreshResult (T : Type) where
  result : Except Unit T
  state : RedisCache T
  calls : Nat
  backgroundStarted : Bool

/-- `RedisCache.getWithRefresh`: the stale-while-revalidate algorithm over
the modelled (error-free) Redis client.  On a miss or hard expiry the first
`refreshFn` invocation happens inside the `try`; if it throws, the `catch`
block counts a second miss, invokes `refreshFn` again, and caches
best-effort. -/
def RedisCache.getWithRefresh (r : RedisCache T) (now : Int) (key : String)
    (fn : Nat → Except Unit T) (ttlMs : Int) (refreshThresholdPercent : Int) :
    RedisRefreshResult T :=
  let missPath : RedisCache T → RedisRefreshResult T := fun r0 =>
    let r1 := { r0 with misses := r0.misses + 1 }
    match fn 1 with
    | Except.ok v => ⟨Except.ok v, r1.set now key v ttlMs, 1, false⟩
    | Except.error _ =>
      let r2 := { r1 with misses := r1.misses + 1 }
      match fn 2 with
      | Except.ok v => ⟨Except.ok v, r2.set now key v ttlMs, 2, false⟩
      | Except.error e => ⟨Except.error e, r2, 2, false⟩
  match redisClientGet r.store now (prefixKey key) with
  | some entry =>
    if (now : ℚ) < (entry.createdAt : ℚ) + (ttlMs : ℚ) * (refreshThresholdPercent : ℚ) / 100 then
      ⟨Except.ok entry.data, { r with hits := r.hits + 1 }, 0, false⟩
    else if now < entry.expiresAt then
      let started := !(r.refreshingKeys.contains key)
      ⟨Except.ok entry.data,
       { r with hits := r.hits + 1,
                refreshingKeys := if started then key :: r.refreshingKeys else r.refreshingKeys },
       0, started⟩
    else
      missPath r
  | none => missPath r

/-- Reachable-state invariant of the modelled Redis store: `set` always
writes the same deadline into the native TTL and into the serialized entry,
so the two expiry checks agree on every record. -/
def RedisCache.WF (r : RedisCache T) : Prop :=
  ∀ p ∈ r.store, p.2.expireAt = p.2.entry.expiresAt

/-! ## Supporting lemmas -/

/-- `mathCeilDiv` computes the rational ceiling of `a / d` for a positive
(natural) divisor. -/
theorem mathCeilDiv_eq_ceil (a : Int) (d : Nat) :
    mathCeilDiv a (d : Int) = ⌈(a : ℚ) / (d : ℚ)⌉ := by
  have h := Rat.floor_intCast_div_natCast (-a) d
  unfold mathCeilDiv
  rw [← h, Int.cast_neg, neg_div, Int.floor_neg, neg_neg]

/-- An error whose message matches a non-retryable pattern is classified
non-retryable, whatever else it matches. -/
theorem isRetryableError_false_of_nonRetryable {m p : String}
    (hp : p ∈ NON_RETRYABLE_PATTERNS) (hm : stringIncludes m p = true) :
    isRetryableError m = false := by
  unfold isRetryableError
  have : NON_RETRYABLE_PATTERNS.any (fun q => stringIncludes m q) = true :=
    List.any_eq_true.mpr ⟨p, hp, hm⟩
  rw [this]
  rfl

/-- An error matching neither pattern list is classified non-retryable. -/
theorem isRetryableError_false_of_unmatched {m : String}
    (_hn : ∀ p ∈ NON_RETRYABLE_PATTERNS, stringIncludes m p = false)
    (hr : ∀ p ∈ RETRYABLE_PATTERNS, stringIncludes m p = false) :
    isRetryableError m = false := by
  unfold isRetryableError
  have h2 : RETRYABLE_PATTERNS.any (fun q => stringIncludes m q) = false := by
    rw [List.any_eq_false]
    intro p hp
    simp [hr p hp]
  rw [h2, Bool.and_false]

/-- An error matching a retryable pattern and no non-retryable pattern is
classified retryable. -/
theorem isRetryableError_true {m p : String}
    (hp : p ∈ RETRYABLE_PATTERNS) (hm : stringIncludes m p = true)
    (hn : ∀ q ∈ NON_RETRYABLE_PATTERNS, stringIncludes m q = false) :
    isRetryableError m = true := by
  unfold isRetryableError
  have h1 : NON_RETRYABLE_PATTERNS.any (fun q => stringIncludes m q) = false := by
    rw [List.any_eq_false]
    intro q hq
    simp [hn q hq]
  have h2 : RETRYABLE_PATTERNS.any (fun q => stringIncludes m q) = true :=
    List.any_eq_true.mpr ⟨p, hp, hm⟩
  rw [h1, h2]
  rfl

/-! ## Claims about the retry executor -/

/-- Claim C6, counterexample: a function that always throws an error whose
message contains "ECONNRESET" is NOT always invoked 3 times with
maxRetries = 3 — when the message also matches a non-retryable pattern, the
non-retryable check fires first and the function is invoked exactly once. -/
theorem executeWithRetry_econnreset_claim_counterexample :
    stringIncludes ("ECONNRESET Invalid credentials") ("ECONNRESET") = true ∧
    (executeWithRetry (fun _ => Except.error ("ECONNRESET Invalid credentials")) 3 1000 :
        RetryTrace Nat).calls = 1 :=
  ⟨rfl, rfl⟩

/-- Claim C6 (amended): for `executeWithRetry` with maxRetries = 3 and any
baseDelayMs, applied to a function that always throws an error whose message
contains "ECONNRESET" and matches no non-retryable pattern: the wrapped
function is invoked exactly 3 times, the waits between consecutive attempts
are baseDelayMs and then 2 * baseDelayMs, and after the final attempt the
last observed error propagates to the caller. -/
theorem executeWithRetry_econnreset_three_attempts
    (baseDelayMs : Int) (msgs : Nat → String)
    (hre : ∀ i, stringIncludes (msgs i) ("ECONNRESET") = true)
    (hnon : ∀ i, ∀ q ∈ NON_RETRYABLE_PATTERNS, stringIncludes (msgs i) q = false) :
    executeWithRetry (fun i => (Except.error (msgs i) : Except String T)) 3 baseDelayMs =
      ⟨Except.error (some (msgs 3)), 3, [baseDelayMs, 2 * baseDelayMs]⟩ := by
  have hmem : ("ECONNRESET" : String) ∈ RETRYABLE_PATTERNS := by decide
  have h1 : isRetryableError (msgs 1) = true := isRetryableError_true hmem (hre 1) (hnon 1)
  have h2 : isRetryableError (msgs 2) = true := isRetryableError_true hmem (hre 2) (hnon 2)
  unfold executeWithRetry
  simp [retryGo, h1, h2, RetryTrace.mk.injEq]
  ring

/-- Witness for the amended claim C6 at a concrete function and delay. -/
theorem executeWithRetry_econnreset_three_attempts_witness :
    executeWithRetry (fun _ => Except.error ("ECONNRESET by peer")) 3 1000 =
      (⟨Except.error (some ("ECONNRESET by peer")), 3, [1000, 2 * 1000]⟩ : RetryTrace Nat) := by
  refine executeWithRetry_econnreset_three_attempts 1000 (fun _ => "ECONNRESET by peer") ?_ ?_
  · intro i
    rfl
  · intro i
    show ∀ q ∈ NON_RETRYABLE_PATTERNS, stringIncludes ("ECONNRESET by peer") q = false
    decide

/-- Claim C7: a non-retryable error — one whose message matches the
non-retryable pattern list, or one matching neither list — makes
`executeWithRetry` invoke the wrapped function exactly once and propagate the
original error immediately, with no backoff wait, for every maxRetries ≥ 1. -/
theorem executeWithRetry_nonretryable_single_attempt
    (maxRetries : Nat) (hmr : 1 ≤ maxRetries) (baseDelayMs : Int) (msgs : Nat → String)
    (hclass : (∃ p ∈ NON_RETRYABLE_PATTERNS, stringIncludes (msgs 1) p = true) ∨
      ((∀ p ∈ NON_RETRYABLE_PATTERNS, stringIncludes (msgs 1) p = false) ∧
        (∀ p ∈ RETRYABLE_PATTERNS, stringIncludes (msgs 1) p = false))) :
    executeWithRetry (fun i => (Except.error (msgs i) : Except String T)) maxRetries baseDelayMs =
      ⟨Except.error (some (msgs 1)), 1, []⟩ := by
  have hfalse : isRetryableError (msgs 1) = false := by
    rcases hclass with ⟨p, hp, hm⟩ | ⟨hn, hr⟩
    · exact isRetryableError_false_of_nonRetryable hp hm
    · exact isRetryableError_false_of_unmatched hn hr
  obtain ⟨k, rfl⟩ : ∃ k, maxRetries = k + 1 := ⟨maxRetries - 1, by omega⟩
  unfold executeWithRetry
  simp [retryGo, hfalse]

/-- Witness for claim C7 at a concrete "Invalid credentials" error. -/
theorem executeWithRetry_nonretryable_single_attempt_witness :
    1 ≤ 3 ∧
    executeWithRetry (fun _ => Except.error ("Invalid credentials")) 3 1000 =
      (⟨Except.error (some ("Invalid credentials")), 1, []⟩ : RetryTrace Nat) :=
  ⟨by decide,
   executeWithRetry_nonretryable_single_attempt 3 (by decide) 1000
     (fun _ => "Invalid credentials") (Or.inl ⟨"Invalid credentials", by decide, rfl⟩)⟩

/-- Claim C10: when an error message matches both a non-retryable and a
retryable pattern, the non-retryable list wins because it is checked first:
the error is classified non-retryable, the wrapped function is invoked
exactly once, and the error propagates immediately. -/
theorem executeWithRetry_nonretryable_precedence
    (maxRetries : Nat) (hmr : 1 ≤ maxRetries) (baseDelayMs : Int) (msgs : Nat → String)
    (hnonr : ∃ p ∈ NON_RETRYABLE_PATTERNS, stringIncludes (msgs 1) p = true)
    (_hret : ∃ q ∈ RETRYABLE_PATTERNS, stringIncludes (msgs 1) q = true) :
    isRetryableError (msgs 1) = false ∧
    executeWithRetry (fun i => (Except.error (msgs i) : Except String T)) maxRetries baseDelayMs =
      ⟨Except.error (some (msgs 1)), 1, []⟩ := by
  obtain ⟨p, hp, hm⟩ := hnonr
  have hfalse : isRetryableError (msgs 1) = false :=
    isRetryableError_false_of_nonRetryable hp hm
  refine ⟨hfalse, ?_⟩
  obtain ⟨k, rfl⟩ : ∃ k, maxRetries = k + 1 := ⟨maxRetries - 1, by omega⟩
  unfold executeWithRetry
  simp [retryGo, hfalse]

/-- Witness for claim C10: "Invalid credentials: 500" contains the
non-retryable pattern "Invalid credentials" and the retryable pattern
"500". -/
theorem executeWithRetry_nonretryable_precedence_witness :
    1 ≤ 3 ∧
    isRetryableError ("Invalid credentials: 500") = false ∧
    executeWithRetry (fun _ => Except.error ("Invalid credentials: 500")) 3 1000 =
      (⟨Except.error (some ("Invalid credentials: 500")), 1, []⟩ : RetryTrace Nat) :=
  ⟨by decide,
   executeWithRetry_nonretryable_precedence 3 (by decide) 1000
     (fun _ => "Invalid credentials: 500")
     ⟨"Invalid credentials", by decide, rfl⟩
     ⟨"500", by decide, rfl⟩⟩

/-! ## Claims about the circuit breaker -/

/-- `mathCeilDiv` by 1000 is the rational ceiling of division by 1000. -/
theorem mathCeilDiv_1000 (a : Int) : mathCeilDiv a 1000 = ⌈(a : ℚ) / 1000⌉ := by
  have h := mathCeilDiv_eq_ceil a 1000
  norm_num at h
  exact h

/-- While fewer than `failureThreshold` consecutive failures have occurred
from the initial state, the breaker stays CLOSED with `failureCount` equal to
the number of failures. -/
theorem failNTimes_closed (cfg : CBConfig) (times : Nat → Int) :
    ∀ i, i < cfg.failureThreshold →
      failNTimes cfg CBState.initial times i =
        ⟨CircuitState.CLOSED, i, 0,
         if i = 0 then none else some (times (i - 1)), none, 0⟩ := by
  intro i
  induction i with
  | zero => intro _; rfl
  | succ n ih =>
    intro h
    have hs := ih (Nat.lt_of_succ_lt h)
    have hlt : ¬ (cfg.failureThreshold ≤ n + 1) := by omega
    show (CBState.execute cfg (failNTimes cfg CBState.initial times n) (times n)
      (Except.error () : Except Unit Unit)).state = _
    rw [hs]
    simp [CBState.execute, CBState.execAdmit, CBState.halfOpenGate, CBState.onFailure,
      CBState.transitionTo, hlt]

/-- The `failureThreshold`-th consecutive failure from the initial state
opens the circuit and stamps `lastFailureTime` with the time of that last
failure. -/
theorem failNTimes_open (cfg : CBConfig) (hft : 0 < cfg.failureThreshold) (times : Nat → Int) :
    failNTimes cfg CBState.initial times cfg.failureThreshold =
      ⟨CircuitState.OPEN, cfg.failureThreshold, 0,
       some (times (cfg.failureThreshold - 1)), some (times (cfg.failureThreshold - 1)), 0⟩ := by
  obtain ⟨j, hj⟩ : ∃ j, cfg.failureThreshold = j + 1 := ⟨cfg.failureThreshold - 1, by omega⟩
  rw [hj]
  show (CBState.execute cfg (failNTimes cfg CBState.initial times j) (times j)
    (Except.error () : Except Unit Unit)).state = _
  rw [failNTimes_closed cfg times j (by omega)]
  rcases Nat.eq_zero_or_pos j with h0 | h0
  · subst h0
    simp [CBState.execute, CBState.execAdmit, CBState.halfOpenGate, CBState.onFailure,
      CBState.transitionTo, hj]
  · have hne : ¬ (j = 0) := by omega
    simp [CBState.execute, CBState.execAdmit, CBState.halfOpenGate, CBState.onFailure,
      CBState.transitionTo, hj, hne]

/-- Claim C1: for every breaker configuration with a positive failure
threshold, after exactly `failureThreshold` consecutive failed `execute`
calls from the initial CLOSED state the circuit is OPEN (it is still CLOSED
after any fewer), and every subsequent `execute` call made before
`resetTimeoutMs` has elapsed since `lastFailureTime` throws the
`CircuitBreakerError` carrying `ceil(remainingMs / 1000)` whole seconds until
the next HALF_OPEN attempt, leaves the state unchanged, and never invokes the
wrapped function. -/
theorem circuitBreaker_opens_and_fails_fast {T : Type}
    (cfg : CBConfig) (hft : 0 < cfg.failureThreshold) (times : Nat → Int) :
    (∀ i, i < cfg.failureThreshold →
      (failNTimes cfg CBState.initial times i).state = CircuitState.CLOSED) ∧
    (failNTimes cfg CBState.initial times cfg.failureThreshold).state = CircuitState.OPEN ∧
    (failNTimes cfg CBState.initial times cfg.failureThreshold).lastFailureTime =
      some (times (cfg.failureThreshold - 1)) ∧
    ∀ now : Int, now - times (cfg.failureThreshold - 1) < cfg.resetTimeoutMs →
      ∀ fnOutcome : Except Unit T,
        CBState.execute cfg (failNTimes cfg CBState.initial times cfg.failureThreshold)
            now fnOutcome =
          ⟨ExecOutcome.breakerError
              ⌈((cfg.resetTimeoutMs - (now - times (cfg.failureThreshold - 1)) : Int) : ℚ) / 1000⌉,
           failNTimes cfg CBState.initial times cfg.failureThreshold, false⟩ := by
  refine ⟨fun i hi => by rw [failNTimes_closed cfg times i hi], ?_, ?_, ?_⟩
  · rw [failNTimes_open cfg hft times]
  · rw [failNTimes_open cfg hft times]
  · intro now hlt fnOutcome
    rw [failNTimes_open cfg hft times]
    have hb : ¬ (now - times (cfg.failureThreshold - 1) ≥ cfg.resetTimeoutMs) := by omega
    have hrem : cfg.resetTimeoutMs - (now - times (cfg.failureThreshold - 1)) > 0 := by omega
    simp [CBState.execute, CBState.execAdmit, CBState.shouldTransitionToHalfOpen,
      CBState.getSecondsUntilHalfOpen, hb, hrem, mathCeilDiv_1000]

/-- Witness for claim C1 with the default configuration (threshold 5,
reset timeout 60000 ms), failures at times 0, 1000, ..., 4000, and a
follow-up call at time 30000. -/
theorem circuitBreaker_opens_and_fails_fast_witness :
    0 < (5 : Nat) ∧
    30000 - (1000 : Int) * 4 < 60000 ∧
    (failNTimes ⟨5, 60000, 1⟩ CBState.initial (fun i => (1000 : Int) * i) 5).state =
      CircuitState.OPEN ∧
    CBState.execute ⟨5, 60000, 1⟩
        (failNTimes ⟨5, 60000, 1⟩ CBState.initial (fun i => (1000 : Int) * i) 5)
        30000 (Except.ok (0 : Nat)) =
      ⟨ExecOutcome.breakerError ⌈((60000 - (30000 - (1000 : Int) * 4) : Int) : ℚ) / 1000⌉,
       failNTimes ⟨5, 60000, 1⟩ CBState.initial (fun i => (1000 : Int) * i) 5, false⟩ :=
  ⟨by decide, by decide,
   (@circuitBreaker_opens_and_fails_fast Nat ⟨5, 60000, 1⟩ (by decide)
      (fun i => (1000 : Int) * i)).2.1,
   (@circuitBreaker_opens_and_fails_fast Nat ⟨5, 60000, 1⟩ (by decide)
      (fun i => (1000 : Int) * i)).2.2.2 30000 (by decide) (Except.ok 0)⟩

/-- Claim C2: with `halfOpenMaxAttempts = 1`, once `resetTimeoutMs` has
elapsed since `lastFailureTime` of an OPEN breaker, the next `execute` call
is admitted (the wrapped function is invoked) and moves the state to
HALF_OPEN with the single trial attempt consumed; any second call arriving
during that in-flight trial throws the `CircuitBreakerError` with the fixed
5-second retry hint, leaves the state unchanged, and does not invoke the
function; a successful trial settles to CLOSED with `failureCount = 0`, and a
failed trial settles back to OPEN with `halfOpenAttempts` reset to 0 and the
reset-timeout window restarted from the new `lastFailureTime`. -/
theorem circuitBreaker_halfOpen_single_trial {T : Type}
    (cfg : CBConfig) (hmax : cfg.halfOpenMaxAttempts = 1)
    (s : CBState) (hstate : s.state = CircuitState.OPEN)
    (lft : Int) (hlft : s.lastFailureTime = some lft)
    (now : Int) (helapsed : now - lft ≥ cfg.resetTimeoutMs) :
    (s.execAdmit cfg now).1 = AdmitDecision.proceed ∧
    (s.execAdmit cfg now).2.state = CircuitState.HALF_OPEN ∧
    (s.execAdmit cfg now).2.halfOpenAttempts = 1 ∧
    (∀ (t2 : Int) (fnOutcome : Except Unit T),
      CBState.execute cfg (s.execAdmit cfg now).2 t2 fnOutcome =
        ⟨ExecOutcome.breakerError 5, (s.execAdmit cfg now).2, false⟩) ∧
    (∀ t3 : Int,
      ((s.execAdmit cfg now).2.onSuccess t3).state = CircuitState.CLOSED ∧
      ((s.execAdmit cfg now).2.onSuccess t3).failureCount = 0) ∧
    (∀ t3 : Int,
      (CBState.onFailure cfg (s.execAdmit cfg now).2 t3).state = CircuitState.OPEN ∧
      (CBState.onFailure cfg (s.execAdmit cfg now).2 t3).halfOpenAttempts = 0 ∧
      (CBState.onFailure cfg (s.execAdmit cfg now).2 t3).lastFailureTime = some t3) := by
  have hadm : s.execAdmit cfg now =
      (AdmitDecision.proceed,
       { s with state := CircuitState.HALF_OPEN, lastStateChange := some now,
                halfOpenAttempts := 1 }) := by
    simp [CBState.execAdmit, CBState.shouldTransitionToHalfOpen, hlft, hstate, helapsed,
      CBState.transitionTo, CBState.halfOpenGate, hmax]
  rw [hadm]
  refine ⟨rfl, rfl, rfl, ?_, ?_, ?_⟩
  · intro t2 fnOutcome
    simp [CBState.execute, CBState.execAdmit, CBState.halfOpenGate, hmax]
  · intro t3
    simp [CBState.onSuccess, CBState.transitionTo]
  · intro t3
    simp [CBState.onFailure, CBState.transitionTo]

/-- Witness for claim C2 with the default configuration, an OPEN state whose
last failure was at time 0, and a trial admitted at time 60000. -/
theorem circuitBreaker_halfOpen_single_trial_witness :
    (⟨5, 60000, 1⟩ : CBConfig).halfOpenMaxAttempts = 1 ∧
    (⟨CircuitState.OPEN, 5, 0, some 0, some 0, 0⟩ : CBState).state = CircuitState.OPEN ∧
    (60000 : Int) - 0 ≥ (⟨5, 60000, 1⟩ : CBConfig).resetTimeoutMs ∧
    (CBState.execAdmit ⟨5, 60000, 1⟩ ⟨CircuitState.OPEN, 5, 0, some 0, some 0, 0⟩ 60000).1 =
      AdmitDecision.proceed ∧
    ((CBState.execAdmit ⟨5, 60000, 1⟩
        ⟨CircuitState.OPEN, 5, 0, some 0, some 0, 0⟩ 60000).2.onSuccess 60001).state =
      CircuitState.CLOSED :=
  ⟨rfl, rfl, by decide,
   (@circuitBreaker_halfOpen_single_trial Nat ⟨5, 60000, 1⟩ rfl
      ⟨CircuitState.OPEN, 5, 0, some 0, some 0, 0⟩ rfl 0 rfl 60000 (by decide)).1,
   ((@circuitBreaker_halfOpen_single_trial Nat ⟨5, 60000, 1⟩ rfl
      ⟨CircuitState.OPEN, 5, 0, some 0, some 0, 0⟩ rfl 0 rfl 60000 (by decide)).2.2.2.2.1
      60001).1⟩

/-! ## Claims about the cache backends -/

/-- Looking up a key right after inserting it into a nonempty-capacity LRU
store finds exactly the inserted entry. -/
theorem lruLookup_lruInsert_self (l : List (String × CacheEntry T)) (key : String)
    (e : CacheEntry T) (max : Nat) (hmax : 0 < max) :
    lruLookup (lruInsert l key e max) key = some e := by
  obtain ⟨n, rfl⟩ : ∃ n, max = n + 1 := ⟨max - 1, by omega⟩
  simp only [lruInsert, List.take_succ_cons, lruLookup]
  rw [List.find?_cons_of_pos]
  · rfl
  · simp

/-- No pair surviving `lruErase l key` is keyed by `key`. -/
theorem fst_ne_of_mem_lruErase {l : List (String × CacheEntry T)} {key : String}
    {p : String × CacheEntry T} (h : p ∈ lruErase l key) : ¬ (p.1 = key) := by
  have h2 := (List.mem_filter.mp h).2
  simpa using h2

/-- Claim C4, counterexample: an entry written with `ttl = 0` and read in the
same millisecond is a HIT — `get` returns the value, counts no miss, and the
key is still reported by `stats()` — because expiry requires
`now > expiresAt` strictly. -/
theorem memoryCache_get_ttl_zero_counterexample :
    (MemoryCache.get ((MemoryCache.empty : MemoryCache Nat).set 0 ("k") 42 0) 0 ("k")).1 =
      some 42 ∧
    (MemoryCache.get ((MemoryCache.empty : MemoryCache Nat).set 0 ("k") 42 0) 0 ("k")).2.misses
      = 0 ∧
    ("k") ∈ (((MemoryCache.get ((MemoryCache.empty : MemoryCache Nat).set 0 ("k") 42 0)
      0 ("k")).2.stats 0).1).keys :=
  ⟨rfl, rfl, by decide⟩

/-- Claim C4 (amended): for every key set with `ttl < 0` and read at or after
the write, and for every key whose elapsed time since `set` strictly exceeds
its ttl: `get` returns `null`, increments the miss counter by exactly one
(hits unchanged), and the key is absent from the key set subsequently
reported by `stats()`. -/
theorem memoryCache_expired_get_misses_and_evicts {T : Type} (m : MemoryCache T)
    (t0 : Int) (key : String) (v : T) (ttl : Int) (now : Int)
    (hexp : (ttl < 0 ∧ t0 ≤ now) ∨ ttl < now - t0) :
    ((m.set t0 key v ttl).get now key).1 = none ∧
    ((m.set t0 key v ttl).get now key).2.misses = m.misses + 1 ∧
    ((m.set t0 key v ttl).get now key).2.hits = m.hits ∧
    key ∉ (((((m.set t0 key v ttl).get now key).2).stats now).1).keys := by
  have hgt : now > t0 + ttl := by rcases hexp with ⟨h1, h2⟩ | h <;> omega
  have hlook : lruLookup (m.set t0 key v ttl).cache key = some ⟨v, t0, t0 + ttl⟩ := by
    unfold MemoryCache.set
    exact lruLookup_lruInsert_self _ _ _ _ (by decide)
  have hget : (m.set t0 key v ttl).get now key =
      (none, ⟨lruErase (m.set t0 key v ttl).cache key, (m.set t0 key v ttl).hits,
              (m.set t0 key v ttl).misses + 1, (m.set t0 key v ttl).refreshingKeys⟩) := by
    simp [MemoryCache.get, hlook, hgt]
  rw [hget]
  refine ⟨rfl, by simp [MemoryCache.set], by simp [MemoryCache.set], ?_⟩
  simp only [MemoryCache.stats, MemoryCache.clearExpired]
  intro hmem
  obtain ⟨p, hp, hfst⟩ := List.mem_map.mp hmem
  exact fst_ne_of_mem_lruErase (List.mem_filter.mp hp).1 hfst

/-- Witness for the amended claim C4: set at time 0 with ttl 1000, read at
time 1001. -/
theorem memoryCache_expired_get_misses_and_evicts_witness :
    ((1000 : Int) < 0 ∧ (0 : Int) ≤ 1001) ∨ (1000 : Int) < 1001 - 0 ∧
    (((MemoryCache.empty : MemoryCache Nat).set 0 ("k") 42 1000).get 1001 ("k")).1 = none ∧
    ("k") ∉ ((((((MemoryCache.empty : MemoryCache Nat).set 0 ("k") 42 1000).get 1001
      ("k")).2).stats 1001).1).keys := by
  have h := memoryCache_expired_get_misses_and_evicts
    (MemoryCache.empty : MemoryCache Nat) 0 ("k") 42 1000 1001 (Or.inr (by decide))
  exact Or.inr ⟨by decide, h.1, h.2.2.2⟩

/-- Claim C8, counterexample: `set` with a negative `ttlMs` writes an entry
whose `expiresAt` is strictly before its `createdAt`, violating the
data-model invariant `expiresAt >= createdAt`. -/
theorem memoryCache_set_invariant_counterexample :
    lruLookup (((MemoryCache.empty : MemoryCache Nat).set 0 ("k") 42 (-1)).cache) ("k") =
      some ⟨42, 0, -1⟩ ∧
    (⟨42, 0, -1⟩ : CacheEntry Nat).expiresAt < (⟨42, 0, -1⟩ : CacheEntry Nat).createdAt :=
  ⟨rfl, by decide⟩

/-- Claim C8 (amended): for every key, data and `ttlMs ≥ 0`, on both
backends, the entry written by `set` has `createdAt = now` and
`expiresAt = now + ttlMs`, satisfies `expiresAt ≥ createdAt`, and
unconditionally replaces any existing entry for that key (the subsequent
lookup finds exactly the new entry whatever the prior state was); the Redis
record also carries the native TTL deadline `now + ttlMs`. -/
theorem cache_set_writes_invariant_entry {T : Type} (m : MemoryCache T) (r : RedisCache T)
    (now : Int) (key : String) (data : T) (ttlMs : Int) (httl : 0 ≤ ttlMs) :
    lruLookup ((m.set now key data ttlMs)).cache key = some ⟨data, now, now + ttlMs⟩ ∧
    now ≤ now + ttlMs ∧
    List.find? (fun p => p.1 == prefixKey key) ((r.set now key data ttlMs)).store =
      some (prefixKey key, ⟨⟨data, now, now + ttlMs⟩, now + ttlMs⟩) := by
  refine ⟨?_, by omega, ?_⟩
  · unfold MemoryCache.set
    exact lruLookup_lruInsert_self _ _ _ _ (by decide)
  · unfold RedisCache.set redisClientSet
    rw [List.find?_cons_of_pos]
    simp

/-- Witness for the amended claim C8 at ttl 1000 over empty backends. -/
theorem cache_set_writes_invariant_entry_witness :
    (0 : Int) ≤ 1000 ∧
    lruLookup (((MemoryCache.empty : MemoryCache Nat).set 7 ("k") 42 1000).cache) ("k") =
      some ⟨42, 7, 7 + 1000⟩ ∧
    List.find? (fun p => p.1 == prefixKey ("k"))
        (((RedisCache.empty : RedisCache Nat).set 7 ("k") 42 1000).store) =
      some (prefixKey ("k"), ⟨⟨42, 7, 7 + 1000⟩, 7 + 1000⟩) := by
  have h := cache_set_writes_invariant_entry (MemoryCache.empty : MemoryCache Nat)
    (RedisCache.empty : RedisCache Nat) 7 ("k") 42 1000 (by decide)
  exact ⟨by decide, h.1, h.2.2⟩

/-- Claim C5: on both backends, whenever `getWithRefresh` finds an entry
still inside its freshness window
(`now < createdAt + ttlMs * refreshThresholdPercent / 100`), it counts a
hit (misses unchanged), returns the cached data, and `refreshFn` is never
invoked — neither synchronously nor as a background task. -/
theorem getWithRefresh_fresh_never_invokes {T : Type}
    (m : MemoryCache T) (r : RedisCache T) (now : Int) (key : String) (ttlMs pct : Int)
    (em : CacheEntry T) (hm : lruLookup m.cache key = some em)
    (hfm : (now : ℚ) < (em.createdAt : ℚ) + (ttlMs : ℚ) * (pct : ℚ) / 100)
    (er : CacheEntry T) (hr : redisClientGet r.store now (prefixKey key) = some er)
    (hfr : (now : ℚ) < (er.createdAt : ℚ) + (ttlMs : ℚ) * (pct : ℚ) / 100)
    (fnMem : Except Unit T) (fnRedis : Nat → Except Unit T) :
    (m.getWithRefresh now key fnMem ttlMs pct).result = Except.ok em.data ∧
    (m.getWithRefresh now key fnMem ttlMs pct).state.hits = m.hits + 1 ∧
    (m.getWithRefresh now key fnMem ttlMs pct).state.misses = m.misses ∧
    (m.getWithRefresh now key fnMem ttlMs pct).syncCalls = 0 ∧
    (m.getWithRefresh now key fnMem ttlMs pct).backgroundStarted = false ∧
    (r.getWithRefresh now key fnRedis ttlMs pct).result = Except.ok er.data ∧
    (r.getWithRefresh now key fnRedis ttlMs pct).state.hits = r.hits + 1 ∧
    (r.getWithRefresh now key fnRedis ttlMs pct).state.misses = r.misses ∧
    (r.getWithRefresh now key fnRedis ttlMs pct).calls = 0 ∧
    (r.getWithRefresh now key fnRedis ttlMs pct).backgroundStarted = false := by
  have h1 : m.getWithRefresh now key fnMem ttlMs pct =
      ⟨Except.ok em.data,
       ⟨lruTouch m.cache key, m.hits + 1, m.misses, m.refreshingKeys⟩, 0, false⟩ := by
    simp [MemoryCache.getWithRefresh, hm, hfm]
  have h2 : r.getWithRefresh now key fnRedis ttlMs pct =
      ⟨Except.ok er.data, ⟨r.store, r.hits + 1, r.misses, r.refreshingKeys⟩, 0, false⟩ := by
    simp [RedisCache.getWithRefresh, hr, hfr]
  rw [h1, h2]
  exact ⟨rfl, rfl, rfl, rfl, rfl, rfl, rfl, rfl, rfl, rfl⟩

/-- Witness for claim C5: entries written at time 0 with ttl 1000 and read at
time 100, threshold 80 percent. -/
theorem getWithRefresh_fresh_never_invokes_witness :
    lruLookup (((MemoryCache.empty : MemoryCache Nat).set 0 ("k") 42 1000).cache) ("k") =
      some ⟨42, 0, 1000⟩ ∧
    ((100 : Int) : ℚ) < ((0 : Int) : ℚ) + ((1000 : Int) : ℚ) * ((80 : Int) : ℚ) / 100 ∧
    (((MemoryCache.empty : MemoryCache Nat).set 0 ("k") 42 1000).getWithRefresh 100 ("k")
       (Except.error ()) 1000 80).syncCalls = 0 ∧
    (((MemoryCache.empty : MemoryCache Nat).set 0 ("k") 42 1000).getWithRefresh 100 ("k")
       (Except.error ()) 1000 80).backgroundStarted = false ∧
    (((RedisCache.empty : RedisCache Nat).set 0 ("k") 42 1000).getWithRefresh 100 ("k")
       (fun _ => Except.error ()) 1000 80).calls = 0 := by
  have hm : lruLookup (((MemoryCache.empty : MemoryCache Nat).set 0 ("k") 42 1000).cache)
      ("k") = some ⟨42, 0, 1000⟩ := rfl
  have hr : redisClientGet (((RedisCache.empty : RedisCache Nat).set 0 ("k") 42 1000).store)
      100 (prefixKey ("k")) = some ⟨42, 0, 1000⟩ := rfl
  have hq : ((100 : Int) : ℚ) < ((0 : Int) : ℚ) + ((1000 : Int) : ℚ) * ((80 : Int) : ℚ) / 100 := by
    norm_num
  have h := getWithRefresh_fresh_never_invokes
    ((MemoryCache.empty : MemoryCache Nat).set 0 ("k") 42 1000)
    ((RedisCache.empty : RedisCache Nat).set 0 ("k") 42 1000)
    100 ("k") 1000 80 ⟨42, 0, 1000⟩ hm hq ⟨42, 0, 1000⟩ hr hq
    (Except.error ()) (fun _ => Except.error ())
  exact ⟨hm, hq, h.2.2.2.1, h.2.2.2.2.1, h.2.2.2.2.2.2.2.2.1⟩

/-- `set` preserves the Redis store well-formedness invariant. -/
theorem RedisCache.WF_set {T : Type} {r : RedisCache T} (hwf : r.WF)
    (now : Int) (key : String) (data : T) (ttlMs : Int) :
    (r.set now key data ttlMs).WF := by
  intro p hp
  rcases List.mem_cons.mp hp with hp | hp
  · subst hp
    rfl
  · exact hwf p (List.mem_filter.mp hp).1

/-- The empty Redis store is well-formed. -/
theorem RedisCache.WF_empty {T : Type} : (RedisCache.empty : RedisCache T).WF := by
  intro p hp
  cases hp

/-- Claim C9: on both backends, `has` returns true exactly when `get` would
find a non-expired entry right now, and it leaves the hit and miss counters
unchanged.  The Redis half assumes the reachable-state invariant that the
native TTL deadline of each record equals its entry-level `expiresAt`, which
`set` always establishes. -/
theorem cache_has_matches_get_preserves_counters {T : Type}
    (m : MemoryCache T) (r : RedisCache T) (hwf : r.WF) (now : Int) (key : String) :
    (m.has now key).1 = ((m.get now key).1).isSome ∧
    (m.has now key).2.hits = m.hits ∧
    (m.has now key).2.misses = m.misses ∧
    (r.has now key).1 = ((r.get now key).1).isSome ∧
    (r.has now key).2.hits = r.hits ∧
    (r.has now key).2.misses = r.misses := by
  refine ⟨?_, ?_, ?_, ?_, rfl, rfl⟩
  · cases hl : lruLookup m.cache key with
    | none => simp [MemoryCache.has, MemoryCache.get, hl]
    | some e =>
      by_cases hc : now > e.expiresAt
      · simp [MemoryCache.has, MemoryCache.get, hl, hc]
      · simp [MemoryCache.has, MemoryCache.get, hl, hc]
  · cases hl : lruLookup m.cache key with
    | none => simp [MemoryCache.has, hl]
    | some e =>
      by_cases hc : now > e.expiresAt
      · simp [MemoryCache.has, hl, hc]
      · simp [MemoryCache.has, hl, hc]
  · cases hl : lruLookup m.cache key with
    | none => simp [MemoryCache.has, hl]
    | some e =>
      by_cases hc : now > e.expiresAt
      · simp [MemoryCache.has, hl, hc]
      · simp [MemoryCache.has, hl, hc]
  · cases hf : r.store.find? (fun p => p.1 == prefixKey key) with
    | none =>
      simp [RedisCache.has, RedisCache.get, redisClientExists, redisClientGet, hf]
    | some p =>
      have heq : p.2.expireAt = p.2.entry.expiresAt := hwf p (List.mem_of_find?_eq_some hf)
      by_cases hexp : now > p.2.expireAt
      · simp [RedisCache.has, RedisCache.get, redisClientExists, redisClientGet, hf, hexp]
      · have happ : ¬ (now > p.2.entry.expiresAt) := by rw [← heq]; exact hexp
        simp [RedisCache.has, RedisCache.get, redisClientExists, redisClientGet, hf, hexp,
          happ]

/-- Witness for claim C9 over concrete single-entry backends read at time
500. -/
theorem cache_has_matches_get_preserves_counters_witness :
    ((RedisCache.empty : RedisCache Nat).set 0 ("k") 42 1000).WF ∧
    (((MemoryCache.empty : MemoryCache Nat).set 0 ("k") 42 1000).has 500 ("k")).1 =
      (((((MemoryCache.empty : MemoryCache Nat).set 0 ("k") 42 1000).get 500 ("k")).1)).isSome ∧
    (((RedisCache.empty : RedisCache Nat).set 0 ("k") 42 1000).has 500 ("k")).1 =
      (((((RedisCache.empty : RedisCache Nat).set 0 ("k") 42 1000).get 500 ("k")).1)).isSome := by
  have hwf : ((RedisCache.empty : RedisCache Nat).set 0 ("k") 42 1000).WF :=
    RedisCache.WF_set RedisCache.WF_empty 0 ("k") 42 1000
  have h := cache_has_matches_get_preserves_counters
    ((MemoryCache.empty : MemoryCache Nat).set 0 ("k") 42 1000)
    ((RedisCache.empty : RedisCache Nat).set 0 ("k") 42 1000) hwf 500 ("k")
  exact ⟨hwf, h.1, h.2.2.2.1⟩

/-- Claim C3, failing behaviour of the Redis backend: `await refreshFn()`
sits inside the `try` block whose `catch` implements the Redis-error
fallback, so on a miss with a `refreshFn` that throws once and then
succeeds, the exception is caught instead of propagating: `refreshFn` is
invoked twice, two misses are counted, the second result is returned to the
caller, and the entry IS cached — in contradiction with "one miss, exactly
one synchronous invocation, the exception propagates, nothing is cached"
(which the memory backend does satisfy). -/
theorem redis_getWithRefresh_catches_refreshFn_error :
    (RedisCache.getWithRefresh (RedisCache.empty : RedisCache Nat) 0 ("k")
        (fun i => if i = 1 then Except.error () else Except.ok 42) 1000 80).calls = 2 ∧
    (RedisCache.getWithRefresh (RedisCache.empty : RedisCache Nat) 0 ("k")
        (fun i => if i = 1 then Except.error () else Except.ok 42) 1000 80).result =
      Except.ok 42 ∧
    (RedisCache.getWithRefresh (RedisCache.empty : RedisCache Nat) 0 ("k")
        (fun i => if i = 1 then Except.error () else Except.ok 42) 1000 80).state.misses = 2 ∧
    redisClientGet (RedisCache.getWithRefresh (RedisCache.empty : RedisCache Nat) 0 ("k")
        (fun i => if i = 1 then Except.error () else Except.ok 42) 1000 80).state.store
        0 (prefixKey ("k")) = some ⟨42, 0, 1000⟩ :=
  ⟨rfl, rfl, rfl, rfl⟩
